import Mathlib

/-!
Shallow embedding of `libaio-win32` (src/libaio_win32.h, src/libaio_win32.cpp),
a Windows IOCP-based emulation of the Linux libaio API.

The embedding models the two algorithmic entry points, `io_submit` and
`io_getevents`, as pure functions over an explicit oracle describing the
results of every native Windows call (handle resolution, completion-port
association, `FlushFileBuffers`, `new (std::nothrow)` allocations, and
`ReadFile`/`WriteFile` issuance) and over an explicit stream of
`GetQueuedCompletionStatus` outcomes.  Machine integers are modelled as
`Nat`/`Int` with explicit `% 2^32` (`DWORD` / `unsigned long` are 32-bit on
the target) and `% 2^64` where overflow matters.  Heap operations performed
by `io_getevents` (`delete win_req`, the read of `win_req->group_vectored`,
`delete group`) are recorded in an explicit memory-event trace.
-/

namespace LibaioWin32

/-! ### Native Windows error-code constants (winerror.h values used by the source) -/

def ERROR_SUCCESS : Nat := 0
def ERROR_INVALID_FUNCTION : Nat := 1
def ERROR_FILE_NOT_FOUND : Nat := 2
def ERROR_PATH_NOT_FOUND : Nat := 3
def ERROR_ACCESS_DENIED : Nat := 5
def ERROR_INVALID_HANDLE : Nat := 6
def ERROR_NOT_ENOUGH_MEMORY : Nat := 8
def ERROR_OUTOFMEMORY : Nat := 14
def ERROR_INVALID_DRIVE : Nat := 15
def ERROR_WRITE_PROTECT : Nat := 19
def ERROR_BAD_COMMAND : Nat := 22
def ERROR_SHARING_VIOLATION : Nat := 32
def ERROR_LOCK_VIOLATION : Nat := 33
def ERROR_HANDLE_EOF : Nat := 38
def ERROR_FILE_EXISTS : Nat := 80
def ERROR_INVALID_PARAMETER : Nat := 87
def ERROR_DISK_FULL : Nat := 112
def ERROR_ALREADY_EXISTS : Nat := 183
def WAIT_TIMEOUT : Nat := 258
def ERROR_OPERATION_ABORTED : Nat := 995
def ERROR_IO_PENDING : Nat := 997
def ERROR_IO_DEVICE : Nat := 1117

/-! ### POSIX errno constants (MSVC errno.h values; the source includes <errno.h>) -/

def EACCES : Int := 13
def ENOENT : Int := 2
def EBADF : Int := 9
def ENOMEM : Int := 12
def EINVAL : Int := 22
def ENODEV : Int := 19
def EROFS : Int := 30
def ENOSPC : Int := 28
def EEXIST : Int := 17
def ECANCELED : Int := 105
def ETIMEDOUT : Int := 138

/-- The value `-EIO` (EIO = 5 in MSVC errno.h): the "Generic I/O error for
unmapped codes" that `windows_error_to_errno` falls back to. -/
def GENERIC_IO_ERROR : Int := -5

/-- Embedding of `windows_error_to_errno` (libaio_win32.cpp lines 93-122):
maps a Windows error code from `GetLastError()` to a negative POSIX errno
value, translating each `case` of the `switch` in source order. -/
def windows_error_to_errno (win_error : Nat) : Int :=
  if win_error = ERROR_SUCCESS then 0
  else if win_error = ERROR_ACCESS_DENIED then -EACCES
  else if win_error = ERROR_FILE_NOT_FOUND then -ENOENT
  else if win_error = ERROR_PATH_NOT_FOUND then -ENOENT
  else if win_error = ERROR_INVALID_HANDLE then -EBADF
  else if win_error = ERROR_NOT_ENOUGH_MEMORY then -ENOMEM
  else if win_error = ERROR_OUTOFMEMORY then -ENOMEM
  else if win_error = ERROR_INVALID_PARAMETER then -EINVAL
  else if win_error = ERROR_INVALID_DRIVE then -ENODEV
  else if win_error = ERROR_WRITE_PROTECT then -EROFS
  else if win_error = ERROR_SHARING_VIOLATION then -EACCES
  else if win_error = ERROR_LOCK_VIOLATION then -EACCES
  else if win_error = ERROR_HANDLE_EOF then -EBADF
  else if win_error = ERROR_IO_DEVICE then GENERIC_IO_ERROR
  else if win_error = ERROR_DISK_FULL then -ENOSPC
  else if win_error = ERROR_FILE_EXISTS then -EEXIST
  else if win_error = ERROR_ALREADY_EXISTS then -EEXIST
  else if win_error = ERROR_OPERATION_ABORTED then -ECANCELED
  else if win_error = WAIT_TIMEOUT then -ETIMEDOUT
  else if win_error = ERROR_INVALID_FUNCTION then -EINVAL
  else if win_error = ERROR_BAD_COMMAND then GENERIC_IO_ERROR
  else GENERIC_IO_ERROR

/-- The Windows error codes that appear as a `case` label in the `switch` of
`windows_error_to_errno`; every code outside this list takes the `default`
branch. -/
def mappedWinCodes : List Nat :=
  [ERROR_SUCCESS, ERROR_ACCESS_DENIED, ERROR_FILE_NOT_FOUND, ERROR_PATH_NOT_FOUND,
   ERROR_INVALID_HANDLE, ERROR_NOT_ENOUGH_MEMORY, ERROR_OUTOFMEMORY,
   ERROR_INVALID_PARAMETER, ERROR_INVALID_DRIVE, ERROR_WRITE_PROTECT,
   ERROR_SHARING_VIOLATION, ERROR_LOCK_VIOLATION, ERROR_HANDLE_EOF,
   ERROR_IO_DEVICE, ERROR_DISK_FULL, ERROR_FILE_EXISTS, ERROR_ALREADY_EXISTS,
   ERROR_OPERATION_ABORTED, WAIT_TIMEOUT, ERROR_INVALID_FUNCTION, ERROR_BAD_COMMAND]

/-! ### libaio opcode constants.

`IO_CMD_PREAD/PWRITE/PREADV/PWRITEV` are defined in src/libaio_win32.h lines
75-80.  `IO_CMD_FSYNC`/`IO_CMD_FDSYNC` are referenced by the .cpp but not
defined in the provided header; 2 and 3 are libaio's standard values for them. -/

def IO_CMD_PREAD : Int := 0
def IO_CMD_PWRITE : Int := 1
def IO_CMD_FSYNC : Int := 2
def IO_CMD_FDSYNC : Int := 3
def IO_CMD_PREADV : Int := 7
def IO_CMD_PWRITEV : Int := 8

/-! ### The iocb data model (src/libaio_win32.h lines 24-59).

Buffer pointers are modelled as opaque `Nat` identities.  `iov_len` is
`size_t` (64-bit), `nbytes` is `unsigned long` (32-bit on the target),
offsets are `long long`, modelled as `Int`. -/

/-- Embedding of `struct iovec`. -/
structure iovec where
  iov_base : Nat
  iov_len : Nat
deriving DecidableEq

/-- Embedding of the `u.c` member of `struct iocb` (standard PREAD/PWRITE). -/
structure iocb_common where
  buf : Nat
  nbytes : Nat
  offset : Int
deriving DecidableEq

/-- Embedding of the `u.v` member of `struct iocb` (vectored PREADV/PWRITEV).
`nr_segs` is the length of `vec`. -/
structure iocb_vector where
  vec : List iovec
  offset : Int
deriving DecidableEq

/-- Embedding of `struct iocb`.  The C union `u` is modelled with both arms
present; the code reads the arm selected by `aio_lio_opcode`. -/
structure iocb where
  data : Nat
  aio_lio_opcode : Int
  aio_fildes : Int
  u_c : iocb_common
  u_v : iocb_vector
deriving DecidableEq

/-! ### DWORD splitting of 64-bit offsets.

`win_req->overlapped.Offset = (DWORD)(current_offset & 0xFFFFFFFF)` and
`OffsetHigh = (DWORD)((current_offset >> 32) & 0xFFFFFFFF)` on a `long long`:
`&` on two's complement is `emod 2^32`, arithmetic `>> 32` is floor division
by `2^32`. -/

def dwordLow (x : Int) : Nat := (x.emod 4294967296).toNat

def dwordHigh (x : Int) : Nat := ((x.fdiv 4294967296).emod 4294967296).toNat

/-- The 64-bit file position a native request addresses, reassembled from the
OVERLAPPED `Offset`/`OffsetHigh` pair as the kernel does. -/
def reassembledOffset (low high : Nat) : Int := (low : Int) + 4294967296 * (high : Int)

/-! ### Submission-side oracle: results of the native calls io_submit makes. -/

/-- Result of one `ReadFile`/`WriteFile` issuance: `ok` is a TRUE return,
`failed e` is a FALSE return with `GetLastError() = e` (pending is
`failed ERROR_IO_PENDING`). -/
inductive NativeResult where
  | ok : NativeResult
  | failed (lastError : Nat) : NativeResult
deriving DecidableEq

/-- Whether a native issuance leaves a request in flight (TRUE, or FALSE with
`ERROR_IO_PENDING`). -/
def nativeAccepted : NativeResult → Bool
  | .ok => true
  | .failed e => e == ERROR_IO_PENDING

/-- Oracle for one segment of a vectored operation: the result of its
`new (std::nothrow) WinAioRequest` and of its `ReadFile`/`WriteFile`. -/
structure SegEnv where
  allocOk : Bool
  native : NativeResult
deriving DecidableEq

/-- Segment oracle used past the end of the supplied list (alloc succeeds,
native call pending). -/
def defaultSegEnv : SegEnv := ⟨true, .failed ERROR_IO_PENDING⟩

/-- Oracle for one iocb's trip through the `io_submit` loop body:
`resolveOk` is `_get_osfhandle` not returning INVALID_HANDLE_VALUE,
`assocOk` is the `CreateIoCompletionPort` association succeeding, `flushOk`
is `FlushFileBuffers` (sync path), `allocOk`/`native` are the single/sync
paths' `new WinAioRequest` and `ReadFile`/`WriteFile`, `groupAllocOk` is the
vectored path's `new VectoredRequestGroup`, and `segEnvs` holds the
per-segment oracles consumed positionally. -/
structure OpEnv where
  resolveOk : Bool
  assocOk : Bool
  flushOk : Bool
  allocOk : Bool
  native : NativeResult
  groupAllocOk : Bool
  segEnvs : List SegEnv
deriving DecidableEq

/-- One native asynchronous request issued by `io_submit` (a `ReadFile` or
`WriteFile` call that was actually made), with the DWORD offset pair written
into its OVERLAPPED. -/
structure IssuedReq where
  isRead : Bool
  buf : Nat
  len : Nat
  offLow : Nat
  offHigh : Nat
deriving DecidableEq

/-- How the per-iocb loop body of `io_submit` exits: `skip` is a `continue`
without counting, `accept` reaches `iocbs_processed++`, `abort` is the
allocation-failure `break` / `goto cleanup_and_exit`. -/
inductive StepOut where
  | skip : StepOut
  | accept : StepOut
  | abort : StepOut
deriving DecidableEq

/-- Result of one iocb's trip through the submission loop body: how it
exited, the native requests it issued, and how many `WinAioRequest` records
it created that were not immediately deleted. -/
structure OpResult where
  out : StepOut
  issued : List IssuedReq
  liveRecs : Nat
deriving DecidableEq

/-- The zero-length `ReadFile(fileHandle, NULL, 0, ..)` with zeroed
OVERLAPPED queued by the sync path (libaio_win32.cpp line 171). -/
def syncIssued : IssuedReq := ⟨true, 0, 0, 0, 0⟩

/-- The single native request of the non-vectored read/write path
(libaio_win32.cpp lines 220-226): note the `(DWORD)` cast of `nbytes`. -/
def singleIssued (op : iocb) : IssuedReq :=
  ⟨op.aio_lio_opcode == IO_CMD_PREAD, op.u_c.buf, op.u_c.nbytes % 4294967296,
   dwordLow op.u_c.offset, dwordHigh op.u_c.offset⟩

/-- The native request issued for one segment at running offset `off`
(libaio_win32.cpp lines 200-206): note the `(DWORD)iov->iov_len` cast. -/
def segIssued (isRead : Bool) (iov : iovec) (off : Int) : IssuedReq :=
  ⟨isRead, iov.iov_base, iov.iov_len % 4294967296, dwordLow off, dwordHigh off⟩

/-- Whether a segment's `WinAioRequest` survives its native issuance (it is
`delete`d at line 209 when the call fails other than with pending). -/
def segLive : NativeResult → Nat
  | .ok => 1
  | .failed e => if e = ERROR_IO_PENDING then 1 else 0

/-- Accumulated outcome of the per-segment `for` loop of the vectored path. -/
structure SegLoopOut where
  issued : List IssuedReq
  live : Nat
  aborted : Bool
deriving DecidableEq

/-- Prepend one processed segment to a segment-loop outcome. -/
def segCons (req : IssuedReq) (live : Nat) (s : SegLoopOut) : SegLoopOut :=
  ⟨req :: s.issued, live + s.live, s.aborted⟩

/-- Embedding of the vectored path's segment loop (libaio_win32.cpp lines
192-212): each segment allocates a record (failure = `goto
cleanup_and_exit`), issues a native read/write at the running offset, drops
the record on a non-pending failure, and advances the offset by the full
`iov_len` unconditionally. -/
def segLoop (isRead : Bool) : List iovec → List SegEnv → Int → SegLoopOut
  | [], _, _ => ⟨[], 0, false⟩
  | iov :: rest, envs, off =>
    if (envs.headD defaultSegEnv).allocOk = false then ⟨[], 0, true⟩
    else
      segCons (segIssued isRead iov off) (segLive (envs.headD defaultSegEnv).native)
        (segLoop isRead rest envs.tail (off + (iov.iov_len : Int)))

/-- Package a segment-loop outcome as the iocb's loop-body result: a
segment-allocation failure takes `goto cleanup_and_exit`, otherwise the
vectored iocb falls through to `iocbs_processed++` (line 233) regardless of
individual segment issuance failures. -/
def segToOpResult (s : SegLoopOut) : OpResult :=
  ⟨if s.aborted then .abort else .accept, s.issued, s.live⟩

/-- Embedding of the body of the `for` loop of `io_submit` (libaio_win32.cpp
lines 147-233) for one non-null iocb, following the source's branch order:
handle resolution, port association, the sync path, the vectored path, and
the single read/write path. -/
def processOp (op : iocb) (env : OpEnv) : OpResult :=
  if env.resolveOk = false then ⟨.skip, [], 0⟩
  else if env.assocOk = false then ⟨.skip, [], 0⟩
  else if op.aio_lio_opcode = IO_CMD_FSYNC ∨ op.aio_lio_opcode = IO_CMD_FDSYNC then
    if env.flushOk = false then ⟨.skip, [], 0⟩
    else if env.allocOk = false then ⟨.abort, [], 0⟩
    else
      match env.native with
      | .ok => ⟨.accept, [syncIssued], 1⟩
      | .failed e =>
        if e = ERROR_IO_PENDING then ⟨.accept, [syncIssued], 1⟩
        else ⟨.skip, [syncIssued], 0⟩
  else if op.aio_lio_opcode = IO_CMD_PREADV ∨ op.aio_lio_opcode = IO_CMD_PWRITEV then
    if op.u_v.vec.length = 0 then ⟨.accept, [], 0⟩
    else if env.groupAllocOk = false then ⟨.abort, [], 0⟩
    else segToOpResult
      (segLoop (op.aio_lio_opcode == IO_CMD_PREADV) op.u_v.vec env.segEnvs op.u_v.offset)
  else
    if env.allocOk = false then ⟨.abort, [], 0⟩
    else
      match env.native with
      | .ok => ⟨.accept, [singleIssued op], 1⟩
      | .failed e =>
        if e = ERROR_IO_PENDING then ⟨.accept, [singleIssued op], 1⟩
        else ⟨.skip, [singleIssued op], 0⟩

/-- Embedding of the `io_submit` loop (libaio_win32.cpp lines 145-236):
returns the accepted count (`iocbs_processed`) and the list of native
requests issued.  A null iocb is skipped; an `abort` outcome stops
processing of the rest of the batch. -/
def submitLoop : List (Option iocb × OpEnv) → Nat × List IssuedReq
  | [] => (0, [])
  | (none, _) :: rest => submitLoop rest
  | (some op, env) :: rest =>
    match (processOp op env).out with
    | .abort => (0, (processOp op env).issued)
    | .skip => ((submitLoop rest).1, (processOp op env).issued ++ (submitLoop rest).2)
    | .accept => ((submitLoop rest).1 + 1, (processOp op env).issued ++ (submitLoop rest).2)

/-- Embedding of `io_submit` (libaio_win32.cpp lines 141-237): `-EINVAL` for
a null/invalid context, otherwise the accepted count. -/
def io_submit (ctxValid : Bool) (ops : List (Option iocb × OpEnv)) : Int :=
  if ctxValid = false then -EINVAL else ((submitLoop ops).1 : Int)

/-! ### The vectored aggregation protocol (VectoredRequestGroup).

`struct VectoredRequestGroup` (libaio_win32.cpp lines 35-49) splits in the
embedding into its immutable part (`GroupInfo`: the original iocb's identity
and `total_segments`) and its atomically updated part (`GroupState`).
`completed_segments` is `std::atomic<long>`, `total_bytes_transferred` and
`first_error` are `std::atomic<unsigned long>` (32-bit, hence the
`% 2^32`). -/

/-- Mutable counters of a `VectoredRequestGroup`. -/
structure GroupState where
  completed_segments : Nat
  total_bytes_transferred : Nat
  first_error : Nat
deriving DecidableEq

/-- The state the `VectoredRequestGroup` constructor establishes
(libaio_win32.cpp lines 42-48). -/
def initGroup : GroupState := ⟨0, 0, 0⟩

/-- Immutable part of a `VectoredRequestGroup`: the `data` and identity of
`original_iocb`, and `total_segments`. -/
structure GroupInfo where
  data : Nat
  obj : Nat
  total_segments : Nat
deriving DecidableEq

/-- Outcome of one dequeued segment completion as seen by `io_getevents`:
the `GetQueuedCompletionStatus` success flag, `bytesTransferred`, and the
`GetLastError()` code captured when the flag is false. -/
structure SegCompletion where
  status : Bool
  bytes : Nat
  ioErr : Nat
deriving DecidableEq

/-- The `fetch_add(1) + 1 == total_segments` step (libaio_win32.cpp line
291): increments `completed_segments` and reports whether this completion is
the one that closes the group out. -/
def groupIncrement (total_segments : Nat) (g : GroupState) : GroupState × Bool :=
  ({ g with completed_segments := g.completed_segments + 1 },
   g.completed_segments + 1 == total_segments)

/-- Embedding of the VECTORED_SEGMENT branch's aggregator update
(libaio_win32.cpp lines 283-291): on success `fetch_add` the byte count into
`total_bytes_transferred`; on failure `compare_exchange_strong(expected = 0,
io_error)` into `first_error`; then increment `completed_segments`. -/
def groupStep (total_segments : Nat) (g : GroupState) (c : SegCompletion) :
    GroupState × Bool :=
  if c.status then
    groupIncrement total_segments
      { g with total_bytes_transferred :=
          (g.total_bytes_transferred + c.bytes) % 4294967296 }
  else if g.first_error = 0 then
    groupIncrement total_segments { g with first_error := c.ioErr }
  else
    groupIncrement total_segments g

/-- Prepend one aggregation step to the already-collected consolidated
events: when the step closes the group out, the event carries the group's
`total_bytes_transferred` as `res` and `first_error` as `res2`
(libaio_win32.cpp lines 293-298). -/
def pgCons (s : GroupState × Bool) (r : GroupState × List (Nat × Nat)) :
    GroupState × List (Nat × Nat) :=
  (r.1, (if s.2 then [(s.1.total_bytes_transferred, s.1.first_error)] else []) ++ r.2)

/-- The aggregation protocol applied to a whole processing order of segment
completions: folds `groupStep` over the list, collecting the `(res, res2)`
payload of every consolidated event emitted. -/
def processGroup (total_segments : Nat) :
    GroupState → List SegCompletion → GroupState × List (Nat × Nat)
  | g, [] => (g, [])
  | g, c :: rest =>
    pgCons (groupStep total_segments g c)
      (processGroup total_segments (groupStep total_segments g c).1 rest)

/-- Sum of the byte counts of the successful completions of a processing
order. -/
def sumSuccessBytes : List SegCompletion → Nat
  | [] => 0
  | c :: rest => (if c.status then c.bytes else 0) + sumSuccessBytes rest

/-- The value `first_error` holds after the compare-and-set protocol runs
over a processing order starting from 0: the first failing completion's
error wins, except that a failing completion carrying error code 0 leaves
the slot open. -/
def firstErrAux : List SegCompletion → Nat
  | [] => 0
  | c :: rest =>
    if c.status then firstErrAux rest
    else if c.ioErr = 0 then firstErrAux rest
    else c.ioErr

/-- The native error code of the first failing completion in processing
order (0 when every completion succeeded). -/
def firstFailErr (cs : List SegCompletion) : Nat :=
  match cs.find? (fun c => !c.status) with
  | some c => c.ioErr
  | none => 0

/-! ### Completion-side model (io_getevents). -/

/-- Embedding of `struct WinAioRequest` as the completion engine sees it: a
tagged variant that is either a `SINGLE_REQUEST` (carrying `iocb_single`'s
`data` and pointer identity) or a `VECTORED_SEGMENT` (carrying the identity
of its `group_vectored`). -/
inductive WinAioRequest where
  | single (data : Nat) (obj : Nat) : WinAioRequest
  | segment (gid : Nat) : WinAioRequest
deriving DecidableEq

/-- One dequeued completion packet: the identity of the `OVERLAPPED` (hence
of its `WinAioRequest`), the `GetQueuedCompletionStatus` flag,
`bytesTransferred`, and the `GetLastError()` value when the flag is false. -/
structure Completion where
  reqId : Nat
  status : Bool
  bytes : Nat
  ioErr : Nat
deriving DecidableEq

/-- One iteration's outcome of the native wait
(`GetQueuedCompletionStatus`): a dequeued packet, a timeout
(`overlapped_ptr` null with `WAIT_TIMEOUT`), or a fatal failure
(`overlapped_ptr` null with another error). -/
inductive WaitOutcome where
  | packet (c : Completion) : WaitOutcome
  | timeout : WaitOutcome
  | fatal (lastError : Nat) : WaitOutcome
deriving DecidableEq

/-- The completion engine's read-only environment: which `WinAioRequest`
each completion identity resolves to (`CONTAINING_RECORD`), and each
group's immutable data. -/
structure GEnv where
  record : Nat → WinAioRequest
  ginfo : Nat → GroupInfo

/-- Embedding of `struct io_event` (src/libaio_win32.h lines 67-72), with
`data` and `obj` as opaque identities. -/
structure IoEvent where
  data : Nat
  obj : Nat
  res : Nat
  res2 : Nat
deriving DecidableEq

/-- Heap operations the completion loop performs on core-owned records
(libaio_win32.cpp lines 302-305): freeing a `WinAioRequest`, reading a
field of a `WinAioRequest`, freeing a `VectoredRequestGroup`. -/
inductive MemEvent where
  | freeReq (id : Nat) : MemEvent
  | readReq (id : Nat) : MemEvent
  | freeGroup (gid : Nat) : MemEvent
deriving DecidableEq

/-- A memory trace contains a read of a record after that record was freed. -/
def hasUseAfterFree (tr : List MemEvent) : Prop :=
  ∃ i j r, i < j ∧ tr.get? i = some (.freeReq r) ∧ tr.get? j = some (.readReq r)

/-- What one dequeued packet does to the loop state: the new
`events_collected`, the new group states, the events appended to the
caller's buffer, and the memory trace of lines 273-305. -/
structure PacketOut where
  collected : Nat
  groups : Nat → GroupState
  evs : List IoEvent
  mem : List MemEvent

/-- The VECTORED_SEGMENT branch (libaio_win32.cpp lines 281-305): run the
aggregation step; if it closes the group out, append the consolidated event,
then `delete win_req`, then read `win_req->group_vectored` (line 304 — a
read of the just-freed record) and free the group; otherwise just `delete
win_req`. -/
def segPacketOut (env : GEnv) (collected : Nat) (groups : Nat → GroupState)
    (c : Completion) (gid : Nat) : PacketOut :=
  match groupStep (env.ginfo gid).total_segments (groups gid) ⟨c.status, c.bytes, c.ioErr⟩ with
  | (g', true) =>
    ⟨collected + 1, fun x => if x = gid then g' else groups x,
     [⟨(env.ginfo gid).data, (env.ginfo gid).obj, g'.total_bytes_transferred, g'.first_error⟩],
     [.freeReq c.reqId, .readReq c.reqId, .freeGroup gid]⟩
  | (g', false) =>
    ⟨collected, fun x => if x = gid then g' else groups x, [], [.freeReq c.reqId]⟩

/-- Processing of one dequeued packet (libaio_win32.cpp lines 265-305).  A
SINGLE_REQUEST produces one event with `res = status ? bytesTransferred : 0`
and `res2` the raw Windows error code (0 on success), then frees its
record. -/
def processPacket (env : GEnv) (collected : Nat) (groups : Nat → GroupState)
    (c : Completion) : PacketOut :=
  match env.record c.reqId with
  | .single data obj =>
    ⟨collected + 1, groups,
     [⟨data, obj, if c.status then c.bytes else 0, if c.status then 0 else c.ioErr⟩],
     [.freeReq c.reqId]⟩
  | .segment gid => segPacketOut env collected groups c gid

/-- Result of a whole `io_getevents` call: the returned value (count or
negative errno), the events written to the caller's buffer, the log of
native waits as (events_collected at the wait, wait budget in ms) pairs,
and the memory trace. -/
structure GEOut where
  ret : Int
  events : List IoEvent
  waits : List (Nat × Nat)
  mem : List MemEvent
deriving DecidableEq

/-- This iteration's wait budget (libaio_win32.cpp line 251): the full
caller timeout while fewer than `min_nr` events have been collected, zero
afterwards. -/
def geBudget (min_nr : Int) (timeout_ms : Nat) (collected : Nat) : Nat :=
  if (collected : Int) < min_nr then timeout_ms else 0

/-- Embedding of the `while (events_collected < nr)` loop of `io_getevents`
(libaio_win32.cpp lines 247-311), driven by the stream of native wait
outcomes (an exhausted stream behaves like a timeout, which in the source
can only happen once).  A timeout breaks the loop; a fatal wait failure
returns the translated error immediately; after a packet is processed the
loop breaks when `events_collected >= min_nr` and this iteration's budget
was zero. -/
def geLoop (env : GEnv) (min_nr nr : Int) (timeout_ms : Nat) :
    List WaitOutcome → Nat → (Nat → GroupState) → GEOut
  | [], collected, _ =>
    if (collected : Int) < nr then
      ⟨(collected : Int), [], [(collected, geBudget min_nr timeout_ms collected)], []⟩
    else ⟨(collected : Int), [], [], []⟩
  | .timeout :: _, collected, _ =>
    if (collected : Int) < nr then
      ⟨(collected : Int), [], [(collected, geBudget min_nr timeout_ms collected)], []⟩
    else ⟨(collected : Int), [], [], []⟩
  | .fatal e :: _, collected, _ =>
    if (collected : Int) < nr then
      ⟨windows_error_to_errno e, [], [(collected, geBudget min_nr timeout_ms collected)], []⟩
    else ⟨(collected : Int), [], [], []⟩
  | .packet c :: rest, collected, groups =>
    if (collected : Int) < nr then
      let budget := geBudget min_nr timeout_ms collected
      let p := processPacket env collected groups c
      if (p.collected : Int) ≥ min_nr ∧ budget = 0 then
        ⟨(p.collected : Int), p.evs, [(collected, budget)], p.mem⟩
      else
        let r := geLoop env min_nr nr timeout_ms rest p.collected p.groups
        ⟨r.ret, p.evs ++ r.events, (collected, budget) :: r.waits, p.mem ++ r.mem⟩
    else ⟨(collected : Int), [], [], []⟩

/-- Embedding of `struct timespec` as used here (fields modelled
nonnegative). -/
structure timespec where
  tv_sec : Nat
  tv_nsec : Nat
deriving DecidableEq

/-- Embedding of `timespec_to_ms` (libaio_win32.cpp lines 81-86): INFINITE
(0xFFFFFFFF) for a null pointer, otherwise the millisecond total truncated
to DWORD. -/
def timespec_to_ms : Option timespec → Nat
  | none => 4294967295
  | some t => (t.tv_sec * 1000 + t.tv_nsec / 1000000) % 4294967296

/-- Embedding of `io_getevents` (libaio_win32.cpp lines 239-312): the
argument-validation guard, the `min_nr == 0 && nr == 0` fast path, then the
drain loop. -/
def io_getevents (ctxValid eventsNonNull : Bool) (min_nr nr : Int)
    (timeout : Option timespec) (env : GEnv) (outs : List WaitOutcome)
    (groups0 : Nat → GroupState) : GEOut :=
  if ctxValid = false ∨ min_nr < 0 ∨ min_nr > nr ∨ eventsNonNull = false then
    ⟨-EINVAL, [], [], []⟩
  else if min_nr = 0 ∧ nr = 0 then ⟨0, [], [], []⟩
  else geLoop env min_nr nr (timespec_to_ms timeout) outs 0 groups0

/-- Whether a wait outcome is a dequeued packet resolving to a segment of
group `gid`. -/
def isGidPacket (env : GEnv) (gid : Nat) : WaitOutcome → Bool
  | .packet c =>
    match env.record c.reqId with
    | .segment g => g == gid
    | .single _ _ => false
  | .timeout => false
  | .fatal _ => false

/-- Number of completions for segments of group `gid` in a wait stream. -/
def countGidPackets (env : GEnv) (gid : Nat) (outs : List WaitOutcome) : Nat :=
  outs.countP (isGidPacket env gid)

/-! ### Offset bookkeeping used to state the segment-offset claim. -/

/-- Total byte length of a segment list. -/
def sumLen : List iovec → Nat
  | [] => 0
  | iov :: rest => iov.iov_len + sumLen rest

/-- Sum of the lengths of the first `i` segments. -/
def sumLenBefore : List iovec → Nat → Nat
  | _, 0 => 0
  | [], _ + 1 => 0
  | iov :: rest, i + 1 => iov.iov_len + sumLenBefore rest i

/-- The issued-request list the vectored segment loop produces when no
segment allocation fails: one request per segment at the running offset. -/
def expectedIssued (isRead : Bool) : List iovec → Int → List IssuedReq
  | [], _ => []
  | iov :: rest, off =>
    segIssued isRead iov off :: expectedIssued isRead rest (off + (iov.iov_len : Int))

/-- Placeholder request used with `List.getD`. -/
def dummyIssued : IssuedReq := ⟨false, 0, 0, 0, 0⟩

/-- Placeholder event used with `List.getD`. -/
def dummyEvent : IoEvent := ⟨0, 0, 0, 0⟩

/-- Placeholder iovec used with `List.getD`. -/
def dummyIovec : iovec := ⟨0, 0⟩

/-- Number of segment records of a vectored operation that survive their
native issuance, one oracle entry per segment. -/
def liveSpec : List iovec → List SegEnv → Nat
  | [], _ => 0
  | _ :: rest, envs => segLive (envs.headD defaultSegEnv).native + liveSpec rest envs.tail

/-! ### Concrete sample inputs used by witnesses and counterexamples. -/

/-- Oracle in which every native call of the submission path succeeds. -/
def allOkEnv : OpEnv := ⟨true, true, true, true, .ok, true, []⟩

/-- A processing order for a two-segment group: one successful segment of 10
bytes, then one failing segment with native error 7. -/
def sampleCs : List SegCompletion := [⟨true, 10, 0⟩, ⟨false, 0, 7⟩]

/-- Completion environment for the use-after-free run: completion identity 0
is a segment of group 0, whose group has a single segment. -/
def uafEnv : GEnv := ⟨fun _ => .segment 0, fun _ => ⟨11, 22, 1⟩⟩

/-- Wait stream delivering the single successful segment completion of group
0. -/
def uafOuts : List WaitOutcome := [.packet ⟨0, true, 100, 0⟩]

/-- A data-sync iocb. -/
def C3sop : iocb := ⟨0, IO_CMD_FSYNC, 3, ⟨0, 0, 0⟩, ⟨[], 0⟩⟩

/-- Oracle in which the inline `FlushFileBuffers` fails. -/
def C3senv : OpEnv := ⟨true, true, false, true, .ok, true, []⟩

/-- A one-segment vectored read iocb. -/
def C3vop : iocb := ⟨0, IO_CMD_PREADV, 3, ⟨0, 0, 0⟩, ⟨[⟨500, 100⟩], 0⟩⟩

/-- Oracle in which the single segment's native call fails immediately with
`ERROR_ACCESS_DENIED` (not pending). -/
def C3venv : OpEnv := ⟨true, true, true, true, .ok, true, [⟨true, .failed ERROR_ACCESS_DENIED⟩]⟩

/-- Completion environment for the no-event run: every completion identity
is a single request whose iocb is distinct from group 0's iocb. -/
def C3genv : GEnv :=
  ⟨fun _ => .single 5 33, fun g => if g = 0 then ⟨11, 22, 1⟩ else ⟨0, 0, 1⟩⟩

/-- Wait stream with one single-request completion and no segment completion
of group 0. -/
def C3outs : List WaitOutcome := [.packet ⟨0, true, 100, 0⟩]

/-- A positional write iocb. -/
def C6g1op : iocb := ⟨1, IO_CMD_PWRITE, 3, ⟨100, 4096, 0⟩, ⟨[], 0⟩⟩

/-- A positional read iocb whose handle will fail to resolve. -/
def C6badOp : iocb := ⟨2, IO_CMD_PREAD, 99, ⟨200, 512, 0⟩, ⟨[], 0⟩⟩

/-- Oracle in which `_get_osfhandle` returns INVALID_HANDLE_VALUE. -/
def C6badEnv : OpEnv := ⟨false, true, true, true, .ok, true, []⟩

/-- A second positional write iocb. -/
def C6g2op : iocb := ⟨3, IO_CMD_PWRITE, 3, ⟨300, 1024, 0⟩, ⟨[], 0⟩⟩

/-- A two-segment vectored write iocb at base offset 1000 with segment
lengths 300 and 200. -/
def C7op : iocb := ⟨0, IO_CMD_PWRITEV, 3, ⟨0, 0, 0⟩, ⟨[⟨100, 300⟩, ⟨200, 200⟩], 1000⟩⟩

/-- Oracle for the two-segment vectored write: both allocations succeed
(default segment oracle), group allocation succeeds. -/
def C7env : OpEnv := ⟨true, true, true, true, .ok, true, []⟩

/-- Completion environment delivering one failed single completion with
native error 77. -/
def C8env : GEnv := ⟨fun _ => .single 5 33, fun _ => ⟨0, 0, 1⟩⟩

/-- Wait stream with one failed single-request completion (native error
77). -/
def C8outs : List WaitOutcome := [.packet ⟨0, false, 0, 77⟩]

/-- An iocb with an opcode (42) that is none of the defined commands. -/
def C9op : iocb := ⟨0, 42, 3, ⟨5, 64, 0⟩, ⟨[], 0⟩⟩

/-- A positional write iocb used for the allocation-failure run. -/
def C10op : iocb := ⟨0, IO_CMD_PWRITE, 3, ⟨0, 10, 0⟩, ⟨[], 0⟩⟩

/-- Oracle in which `new (std::nothrow) WinAioRequest` returns null. -/
def C10env : OpEnv := ⟨true, true, true, false, .ok, true, []⟩

/-- Completion environment whose completions are all single requests. -/
def w5env : GEnv := ⟨fun _ => .single 1 2, fun _ => ⟨0, 0, 1⟩⟩

/-- Wait stream with two successful single-request completions. -/
def w5outs : List WaitOutcome := [.packet ⟨0, true, 8, 0⟩, .packet ⟨1, true, 8, 0⟩]

/-! ### Helper lemmas -/

/-- An error code outside the `switch`'s case labels takes the `default`
branch. -/
theorem errno_unmapped (e : Nat) (he : e ∉ mappedWinCodes) :
    windows_error_to_errno e = GENERIC_IO_ERROR := by
  simp only [mappedWinCodes, List.mem_cons, List.mem_singleton, not_or] at he
  obtain ⟨h1, h2, h3, h4, h5, h6, h7, h8, h9, h10, h11, h12, h13, h14, h15, h16,
    h17, h18, h19, h20, h21, -⟩ := he
  unfold windows_error_to_errno
  rw [if_neg h1, if_neg h2, if_neg h3, if_neg h4, if_neg h5, if_neg h6, if_neg h7,
    if_neg h8, if_neg h9, if_neg h10, if_neg h11, if_neg h12, if_neg h13, if_neg h14,
    if_neg h15, if_neg h16, if_neg h17, if_neg h18, if_neg h19, if_neg h20, if_neg h21]

/-- The error translator never returns a positive value. -/
theorem errno_nonpos (e : Nat) : windows_error_to_errno e ≤ 0 := by
  by_cases he : e ∈ mappedWinCodes
  · have hall : ∀ x ∈ mappedWinCodes, windows_error_to_errno x ≤ 0 := by decide
    exact hall e he
  · rw [errno_unmapped e he]
    decide

theorem headD_eq_getD (l : List SegEnv) : l.headD defaultSegEnv = l.getD 0 defaultSegEnv := by
  cases l <;> rfl

theorem getD_tail (l : List SegEnv) (i : Nat) :
    l.tail.getD i defaultSegEnv = l.getD (i + 1) defaultSegEnv := by
  cases l <;> simp [List.getD]

theorem groupStep_completed (t : Nat) (g : GroupState) (c : SegCompletion) :
    ((groupStep t g c).1).completed_segments = g.completed_segments + 1 := by
  unfold groupStep groupIncrement
  split_ifs <;> rfl

theorem groupStep_emit (t : Nat) (g : GroupState) (c : SegCompletion) :
    (groupStep t g c).2 = (g.completed_segments + 1 == t) := by
  unfold groupStep groupIncrement
  split_ifs <;> rfl

theorem groupStep_bytes (t : Nat) (g : GroupState) (c : SegCompletion) :
    ((groupStep t g c).1).total_bytes_transferred =
      if c.status then (g.total_bytes_transferred + c.bytes) % 4294967296
      else g.total_bytes_transferred := by
  unfold groupStep groupIncrement
  split_ifs <;> rfl

theorem groupStep_err (t : Nat) (g : GroupState) (c : SegCompletion) :
    ((groupStep t g c).1).first_error =
      if c.status then g.first_error
      else if g.first_error = 0 then c.ioErr else g.first_error := by
  unfold groupStep groupIncrement
  split_ifs <;> rfl

theorem processGroup_completed (t : Nat) (cs : List SegCompletion) :
    ∀ g, ((processGroup t g cs).1).completed_segments =
      g.completed_segments + cs.length := by
  induction cs with
  | nil => intro g; simp [processGroup]
  | cons c rest ih =>
    intro g
    simp only [processGroup, pgCons]
    rw [ih, groupStep_completed]
    simp only [List.length_cons]
    omega

theorem processGroup_bytes (t : Nat) (cs : List SegCompletion) :
    ∀ g, g.total_bytes_transferred < 4294967296 →
      ((processGroup t g cs).1).total_bytes_transferred =
        (g.total_bytes_transferred + sumSuccessBytes cs) % 4294967296 := by
  induction cs with
  | nil =>
    intro g hg
    simp [processGroup, sumSuccessBytes, Nat.mod_eq_of_lt hg]
  | cons c rest ih =>
    intro g hg
    have hb : ((groupStep t g c).1).total_bytes_transferred < 4294967296 := by
      rw [groupStep_bytes]
      split_ifs
      · exact Nat.mod_lt _ (by omega)
      · exact hg
    simp only [processGroup, pgCons, sumSuccessBytes]
    rw [ih _ hb, groupStep_bytes]
    split_ifs <;> omega

theorem processGroup_err (t : Nat) (cs : List SegCompletion) :
    ∀ g, ((processGroup t g cs).1).first_error =
      if g.first_error = 0 then firstErrAux cs else g.first_error := by
  induction cs with
  | nil =>
    intro g
    simp only [processGroup, firstErrAux]
    split_ifs with h <;> simp [h]
  | cons c rest ih =>
    intro g
    simp only [processGroup, pgCons]
    rw [ih, groupStep_err]
    by_cases hs : c.status <;> by_cases hf : g.first_error = 0 <;>
      by_cases hi : c.ioErr = 0 <;> simp [firstErrAux, hs, hf, hi]

theorem processGroup_events_short (t : Nat) (cs : List SegCompletion) :
    ∀ g, g.completed_segments + cs.length < t → (processGroup t g cs).2 = [] := by
  induction cs with
  | nil => intro g _; simp [processGroup]
  | cons c rest ih =>
    intro g h
    simp only [List.length_cons] at h
    have he : (groupStep t g c).2 = false := by
      rw [groupStep_emit]
      simp only [beq_eq_false_iff_ne]
      omega
    simp only [processGroup, pgCons, he]
    simp only [Bool.false_eq_true, if_false, List.nil_append]
    exact ih _ (by rw [groupStep_completed]; omega)

theorem processGroup_events_full (t : Nat) (cs : List SegCompletion) :
    ∀ g, g.completed_segments + cs.length = t → cs ≠ [] →
      (processGroup t g cs).2 =
        [(((processGroup t g cs).1).total_bytes_transferred,
          ((processGroup t g cs).1).first_error)] := by
  induction cs with
  | nil => intro g _ hne; exact absurd rfl hne
  | cons c rest ih =>
    intro g h _
    simp only [List.length_cons] at h
    by_cases hr : rest = []
    · subst hr
      simp only [List.length_nil] at h
      have he : (groupStep t g c).2 = true := by
        rw [groupStep_emit]
        simp only [beq_iff_eq]
        omega
      simp [processGroup, pgCons, he]
    · have hlen : 1 ≤ rest.length := List.length_pos.mpr hr
      have he : (groupStep t g c).2 = false := by
        rw [groupStep_emit]
        simp only [beq_eq_false_iff_ne]
        omega
      simp only [processGroup, pgCons, he, if_false, List.nil_append]
      exact ih _ (by rw [groupStep_completed]; omega) hr

theorem sumSuccessBytes_eq_map_sum (cs : List SegCompletion) :
    sumSuccessBytes cs = (cs.map (fun c => if c.status then c.bytes else 0)).sum := by
  induction cs with
  | nil => rfl
  | cons c rest ih => simp [sumSuccessBytes, ih]

theorem firstErrAux_eq_firstFailErr (cs : List SegCompletion) :
    (∀ c ∈ cs, c.status = false → c.ioErr ≠ 0) → firstErrAux cs = firstFailErr cs := by
  induction cs with
  | nil => intro _; rfl
  | cons c rest ih =>
    intro h
    by_cases hs : c.status
    · have hfind : (c :: rest).find? (fun x => !x.status) = rest.find? (fun x => !x.status) :=
        List.find?_cons_of_neg _ (by simp [hs])
      have hrec := ih (fun x hx => h x (List.mem_cons_of_mem c hx))
      simp [firstErrAux, hs, firstFailErr, hfind, hrec]
    · have hi : c.ioErr ≠ 0 := h c (List.mem_cons_self c rest) (by simpa using hs)
      have hfind : (c :: rest).find? (fun x => !x.status) = some c :=
        List.find?_cons_of_pos _ (by simp [hs])
      simp [firstErrAux, hs, hi, firstFailErr, hfind]

/-- C1: for a vectored operation with N > 0 segments whose native
submissions all succeeded, processing its N segment completions in any
order yields exactly one consolidated event; its `res` is the sum of the
successful segments' byte counts (which is independent of the processing
order), and its `res2` is 0 when every segment succeeded and otherwise the
native error code of the first failing completion in processing order.
Hypotheses: a failing completion carries a non-zero `GetLastError()` code,
and the byte total fits the 32-bit `total_bytes_transferred` counter. -/
theorem C1_vectored_aggregation (total : Nat) (cs : List SegCompletion)
    (hlen : cs.length = total) (hpos : 0 < total)
    (herr : ∀ c ∈ cs, c.status = false → c.ioErr ≠ 0)
    (hfit : sumSuccessBytes cs < 4294967296) :
    (processGroup total initGroup cs).2 = [(sumSuccessBytes cs, firstFailErr cs)] ∧
    ((∀ c ∈ cs, c.status = true) → firstFailErr cs = 0) ∧
    (∀ cs', cs.Perm cs' → sumSuccessBytes cs' = sumSuccessBytes cs) := by
  have hne : cs ≠ [] := by
    intro h
    rw [h] at hlen
    simp at hlen
    omega
  have hfull := processGroup_events_full total cs initGroup (by simp [initGroup, hlen]) hne
  have hb := processGroup_bytes total cs initGroup (by simp [initGroup])
  have he := processGroup_err total cs initGroup
  refine ⟨?_, ?_, ?_⟩
  · rw [hfull, hb, he]
    simp only [initGroup, Nat.zero_add, if_true]
    rw [Nat.mod_eq_of_lt hfit, firstErrAux_eq_firstFailErr cs herr]
  · intro hall
    unfold firstFailErr
    rw [List.find?_eq_none.mpr (fun x hx => by simp [hall x hx])]
  · intro cs' hp
    rw [sumSuccessBytes_eq_map_sum, sumSuccessBytes_eq_map_sum]
    exact ((hp.map (fun c => if c.status then c.bytes else 0)).sum_eq).symm

/-- Witness for C1 at a concrete two-segment group: one successful segment
of 10 bytes and one failing segment with error 7 yield exactly the event
`(res, res2) = (10, 7)`. -/
theorem C1_witness :
    (processGroup 2 initGroup sampleCs).2 = [(10, 7)] := by
  have h := C1_vectored_aggregation 2 sampleCs (by decide) (by decide)
    (by decide) (by decide)
  rw [h.1]
  decide

/-- Skipped operations (loop-body result `⟨skip, [], 0⟩`) contribute nothing
to the accepted count or the issued-request log. -/
theorem submitLoop_skip (op : iocb) (env : OpEnv)
    (h : processOp op env = ⟨.skip, [], 0⟩) :
    ∀ pre post, submitLoop (pre ++ (some op, env) :: post) = submitLoop (pre ++ post) := by
  intro pre
  induction pre with
  | nil => intro post; simp [submitLoop, h]
  | cons hd rest ih =>
    intro post
    rcases hd with ⟨o, e⟩
    cases o with
    | none =>
      simp only [List.cons_append, submitLoop]
      exact ih post
    | some o' =>
      simp only [List.cons_append, submitLoop]
      cases ho : (processOp o' e).out <;> simp [ho, ih post]

/-- An allocation-failure abort stops the batch: the accepted count is the
count of the prefix processed before the aborting operation. -/
theorem submitLoop_abort (op : iocb) (env : OpEnv)
    (h : (processOp op env).out = .abort) :
    ∀ pre post, (submitLoop (pre ++ (some op, env) :: post)).1 = (submitLoop pre).1 := by
  intro pre
  induction pre with
  | nil => intro post; simp [submitLoop, h]
  | cons hd rest ih =>
    intro post
    rcases hd with ⟨o, e⟩
    cases o with
    | none =>
      simp only [List.cons_append, submitLoop]
      exact ih post
    | some o' =>
      simp only [List.cons_append, submitLoop]
      cases ho : (processOp o' e).out <;> simp [ho, ih post]

/-- C6: an operation whose file handle fails to resolve is skipped — it
contributes nothing to the accepted count or the issued requests, and
processing continues with the rest of the batch — and concretely a batch of
3 operations of which exactly the middle one fails handle resolution makes
`io_submit` return 2. -/
theorem C6_handle_resolution_skip :
    (∀ pre post op env, env.resolveOk = false →
      submitLoop (pre ++ (some op, env) :: post) = submitLoop (pre ++ post)) ∧
    io_submit true
      [(some C6g1op, allOkEnv), (some C6badOp, C6badEnv), (some C6g2op, allOkEnv)] = 2 := by
  constructor
  · intro pre post op env h
    exact submitLoop_skip op env (by simp [processOp, h]) pre post
  · decide

/-- Witness for C6: the general part applied to the concrete
handle-resolution failure alone yields an empty submission. -/
theorem C6_witness : submitLoop [(some C6badOp, C6badEnv)] = (0, []) := by
  have h := C6_handle_resolution_skip.1 [] [] C6badOp C6badEnv rfl
  simpa using h

/-- C10: `io_submit` never returns an out-of-memory error: with a valid
context its result is the non-negative accepted count; an allocation
failure (of a `WinAioRequest` on the single/sync path, or of a
`VectoredRequestGroup`) aborts the rest of the batch and the result is the
count accepted before the aborting operation. -/
theorem C10_no_oom_error :
    (∀ ops, 0 ≤ io_submit true ops) ∧
    (∀ op env, (processOp op env).out = .abort →
      ∀ pre post, (submitLoop (pre ++ (some op, env) :: post)).1 = (submitLoop pre).1) ∧
    (∀ op env, env.resolveOk = true → env.assocOk = true →
      ¬(op.aio_lio_opcode = IO_CMD_FSYNC ∨ op.aio_lio_opcode = IO_CMD_FDSYNC) →
      ¬(op.aio_lio_opcode = IO_CMD_PREADV ∨ op.aio_lio_opcode = IO_CMD_PWRITEV) →
      env.allocOk = false → (processOp op env).out = .abort) ∧
    (∀ op env, env.resolveOk = true → env.assocOk = true →
      (op.aio_lio_opcode = IO_CMD_PREADV ∨ op.aio_lio_opcode = IO_CMD_PWRITEV) →
      ¬op.u_v.vec.length = 0 → env.groupAllocOk = false →
      (processOp op env).out = .abort) := by
  refine ⟨?_, ?_, ?_, ?_⟩
  · intro ops
    simp [io_submit]
  · intro op env h pre post
    exact submitLoop_abort op env h pre post
  · intro op env hres hass hns hnv hal
    unfold processOp
    rw [if_neg (by simp [hres]), if_neg (by simp [hass]), if_neg hns, if_neg hnv,
      if_pos hal]
  · intro op env hres hass hv hlen hga
    have hns : ¬(op.aio_lio_opcode = IO_CMD_FSYNC ∨ op.aio_lio_opcode = IO_CMD_FDSYNC) := by
      rcases hv with h | h <;> rw [h] <;> decide
    unfold processOp
    rw [if_neg (by simp [hres]), if_neg (by simp [hass]), if_neg hns, if_pos hv,
      if_neg hlen, if_pos hga]

/-- Witness for C10: the empty batch is accepted with count 0, and a
single-operation batch whose record allocation fails returns 0 rather than
an error. -/
theorem C10_witness : 0 ≤ io_submit true [] ∧
    (submitLoop [(some C10op, C10env)]).1 = 0 ∧
    (processOp C10op C10env).out = .abort := by
  have h := C10_no_oom_error
  have habort := h.2.2.1 C10op C10env rfl rfl (by decide) (by decide) rfl
  refine ⟨h.1 [], ?_, habort⟩
  have h2 := h.2.1 C10op C10env habort [] []
  simpa using h2

theorem dwordLow_ofNat (a : Nat) : dwordLow (a : Int) = a % 4294967296 := rfl

theorem dwordHigh_ofNat (a : Nat) :
    dwordHigh (a : Int) = a / 4294967296 % 4294967296 := by
  unfold dwordHigh
  rw [show ((a : Int).fdiv 4294967296) = ((a / 4294967296 : Nat) : Int) from
    (Int.ofNat_fdiv a 4294967296).symm]
  rfl

/-- Splitting a nonnegative 64-bit offset into the OVERLAPPED DWORD pair and
reassembling it is the identity. -/
theorem dword_recombine (x : Int) (h0 : 0 ≤ x) (h1 : x < 4294967296 * 4294967296) :
    reassembledOffset (dwordLow x) (dwordHigh x) = x := by
  obtain ⟨a, rfl⟩ := Int.eq_ofNat_of_zero_le h0
  rw [dwordLow_ofNat, dwordHigh_ofNat]
  unfold reassembledOffset
  push_cast
  omega

theorem segLive_le_one (n : NativeResult) : segLive n ≤ 1 := by
  cases n with
  | ok => exact Nat.le_refl 1
  | failed e =>
    simp only [segLive]
    split_ifs <;> omega

theorem segLive_not_accepted (n : NativeResult) (h : nativeAccepted n = false) :
    segLive n = 0 := by
  cases n with
  | ok => simp [nativeAccepted] at h
  | failed e =>
    simp only [nativeAccepted, beq_eq_false_iff_ne] at h
    simp [segLive, h]

theorem liveSpec_le : ∀ (vec : List iovec) (envs : List SegEnv),
    liveSpec vec envs ≤ vec.length := by
  intro vec
  induction vec with
  | nil => intro envs; simp [liveSpec]
  | cons iov rest ih =>
    intro envs
    simp only [liveSpec, List.length_cons]
    have h1 := segLive_le_one (envs.headD defaultSegEnv).native
    have h2 := ih envs.tail
    omega

theorem liveSpec_lt : ∀ (vec : List iovec) (envs : List SegEnv),
    (∃ i, i < vec.length ∧ nativeAccepted ((envs.getD i defaultSegEnv).native) = false) →
    liveSpec vec envs < vec.length := by
  intro vec
  induction vec with
  | nil =>
    rintro envs ⟨i, hi, -⟩
    simp at hi
  | cons iov rest ih =>
    rintro envs ⟨i, hi, hna⟩
    simp only [liveSpec, List.length_cons]
    cases i with
    | zero =>
      rw [← headD_eq_getD] at hna
      rw [segLive_not_accepted _ hna]
      have := liveSpec_le rest envs.tail
      omega
    | succ j =>
      have hlt := ih envs.tail ⟨j, by simpa using hi, by rw [getD_tail]; exact hna⟩
      have := segLive_le_one (envs.headD defaultSegEnv).native
      omega

theorem expectedIssued_length (isRead : Bool) : ∀ (vec : List iovec) (off : Int),
    (expectedIssued isRead vec off).length = vec.length := by
  intro vec
  induction vec with
  | nil => intro off; rfl
  | cons iov rest ih => intro off; simp [expectedIssued, ih]

theorem sumLenBefore_le_sumLen : ∀ (vec : List iovec) (i : Nat),
    sumLenBefore vec i ≤ sumLen vec := by
  intro vec
  induction vec with
  | nil => intro i; cases i <;> simp [sumLenBefore, sumLen]
  | cons iov rest ih =>
    intro i
    cases i with
    | zero => simp [sumLenBefore]
    | succ j =>
      simp only [sumLenBefore, sumLen]
      have := ih j
      omega

theorem expectedIssued_getD (isRead : Bool) : ∀ (vec : List iovec) (off : Int) (i : Nat),
    i < vec.length →
    (expectedIssued isRead vec off).getD i dummyIssued =
      segIssued isRead (vec.getD i dummyIovec) (off + (sumLenBefore vec i : Int)) := by
  intro vec
  induction vec with
  | nil => intro off i hi; simp at hi
  | cons iov rest ih =>
    intro off i hi
    cases i with
    | zero => simp [expectedIssued, sumLenBefore]
    | succ j =>
      simp only [expectedIssued, List.getD_cons_succ]
      rw [ih (off + (iov.iov_len : Int)) j (by simpa using hi)]
      simp only [sumLenBefore]
      congr 1
      push_cast
      ring

/-- When no segment allocation fails, the vectored segment loop issues one
native request per segment at the running offsets, never aborts, and leaves
exactly the accepted segments' records live. -/
theorem segLoop_spec (isRead : Bool) : ∀ (vec : List iovec) (envs : List SegEnv) (off : Int),
    (∀ i, i < vec.length → ((envs.getD i defaultSegEnv).allocOk) = true) →
    segLoop isRead vec envs off =
      ⟨expectedIssued isRead vec off, liveSpec vec envs, false⟩ := by
  intro vec
  induction vec with
  | nil => intro envs off _; rfl
  | cons iov rest ih =>
    intro envs off h
    have h0 : ((envs.headD defaultSegEnv).allocOk) = true := by
      rw [headD_eq_getD]
      exact h 0 (by simp)
    have htl : ∀ i, i < rest.length → ((envs.tail.getD i defaultSegEnv).allocOk) = true := by
      intro i hi
      rw [getD_tail]
      exact h (i + 1) (by simpa using Nat.succ_lt_succ hi)
    have h0' : ((envs.head?.getD defaultSegEnv).allocOk) = true := by
      cases envs <;> simpa using h0
    rw [segLoop]
    rw [if_neg (by simp [h0'])]
    rw [ih envs.tail (off + (iov.iov_len : Int)) htl]
    rfl

/-- The vectored path of the submission loop, when no allocation fails:
the whole operation is accepted and decomposes into `expectedIssued`. -/
theorem processOp_vectored (op : iocb) (env : OpEnv)
    (hop : op.aio_lio_opcode = IO_CMD_PREADV ∨ op.aio_lio_opcode = IO_CMD_PWRITEV)
    (hres : env.resolveOk = true) (hass : env.assocOk = true)
    (hga : env.groupAllocOk = true) (hlen : ¬op.u_v.vec.length = 0)
    (halloc : ∀ i, i < op.u_v.vec.length →
      ((env.segEnvs.getD i defaultSegEnv).allocOk) = true) :
    processOp op env =
      ⟨.accept, expectedIssued (op.aio_lio_opcode == IO_CMD_PREADV) op.u_v.vec op.u_v.offset,
        liveSpec op.u_v.vec env.segEnvs⟩ := by
  have hns : ¬(op.aio_lio_opcode = IO_CMD_FSYNC ∨ op.aio_lio_opcode = IO_CMD_FDSYNC) := by
    rcases hop with h | h <;> rw [h] <;> decide
  unfold processOp
  rw [if_neg (by simp [hres]), if_neg (by simp [hass]), if_neg hns, if_pos hop,
    if_neg hlen, if_neg (by simp [hga])]
  rw [segLoop_spec _ _ _ _ halloc]
  rfl

/-- C7: for a vectored operation with N > 0 segments (group and record
allocations succeeding), the native request issued for segment i addresses
the file position `base offset + sum of the lengths of segments 0..i-1`;
this holds for every segment regardless of the native results of the other
segments' calls (which `env.segEnvs` leaves arbitrary), because the running
offset advances unconditionally.  Bounds: the base offset is nonnegative
and the operation's end fits in 64 bits. -/
theorem C7_segment_offsets (op : iocb) (env : OpEnv)
    (hop : op.aio_lio_opcode = IO_CMD_PREADV ∨ op.aio_lio_opcode = IO_CMD_PWRITEV)
    (hres : env.resolveOk = true) (hass : env.assocOk = true)
    (hga : env.groupAllocOk = true) (hlen : ¬op.u_v.vec.length = 0)
    (halloc : ∀ i, i < op.u_v.vec.length →
      ((env.segEnvs.getD i defaultSegEnv).allocOk) = true)
    (hbase : 0 ≤ op.u_v.offset)
    (hfit : op.u_v.offset + (sumLen op.u_v.vec : Int) < 4294967296 * 4294967296) :
    (processOp op env).issued.length = op.u_v.vec.length ∧
    (∀ i, i < op.u_v.vec.length →
      reassembledOffset (((processOp op env).issued.getD i dummyIssued).offLow)
          (((processOp op env).issued.getD i dummyIssued).offHigh) =
        op.u_v.offset + (sumLenBefore op.u_v.vec i : Int)) := by
  rw [processOp_vectored op env hop hres hass hga hlen halloc]
  constructor
  · exact expectedIssued_length _ _ _
  · intro i hi
    show reassembledOffset
        (((expectedIssued (op.aio_lio_opcode == IO_CMD_PREADV) op.u_v.vec
          op.u_v.offset).getD i dummyIssued).offLow)
        (((expectedIssued (op.aio_lio_opcode == IO_CMD_PREADV) op.u_v.vec
          op.u_v.offset).getD i dummyIssued).offHigh) = _
    rw [expectedIssued_getD _ _ _ _ hi]
    have hnn : (0 : Int) ≤ op.u_v.offset + (sumLenBefore op.u_v.vec i : Int) := by
      have h := Int.ofNat_nonneg (sumLenBefore op.u_v.vec i)
      omega
    have hlt : op.u_v.offset + (sumLenBefore op.u_v.vec i : Int) <
        4294967296 * 4294967296 := by
      have hsle := sumLenBefore_le_sumLen op.u_v.vec i
      omega
    simp only [segIssued]
    exact dword_recombine _ hnn hlt

/-- Witness for C7 at a two-segment vectored write (base offset 1000,
segment lengths 300 and 200): segment 1's native request addresses offset
1300. -/
theorem C7_witness : (processOp C7op C7env).issued.length = 2 ∧
    reassembledOffset (((processOp C7op C7env).issued.getD 1 dummyIssued).offLow)
      (((processOp C7op C7env).issued.getD 1 dummyIssued).offHigh) = 1300 := by
  have h := C7_segment_offsets C7op C7env (Or.inr rfl) rfl rfl rfl (by decide)
    (fun i hi => rfl) (by decide) (by decide)
  exact ⟨h.1.trans (by decide), (h.2 1 (by decide)).trans (by decide)⟩

/-- C9: an iocb whose opcode is none of the defined commands is not
rejected: it takes the single-operation path, and because its opcode is not
`IO_CMD_PREAD` a native positional *write* is issued from its
`{buf, nbytes, offset}` payload; the operation is counted as accepted
exactly when that write is accepted (TRUE or pending). -/
theorem C9_unknown_opcode_write (op : iocb) (env : OpEnv)
    (h0 : op.aio_lio_opcode ≠ IO_CMD_PREAD) (h1 : op.aio_lio_opcode ≠ IO_CMD_PWRITE)
    (h2 : op.aio_lio_opcode ≠ IO_CMD_FSYNC) (h3 : op.aio_lio_opcode ≠ IO_CMD_FDSYNC)
    (h7 : op.aio_lio_opcode ≠ IO_CMD_PREADV) (h8 : op.aio_lio_opcode ≠ IO_CMD_PWRITEV)
    (hres : env.resolveOk = true) (hass : env.assocOk = true)
    (halloc : env.allocOk = true) :
    (processOp op env).issued = [⟨false, op.u_c.buf, op.u_c.nbytes % 4294967296,
        dwordLow op.u_c.offset, dwordHigh op.u_c.offset⟩] ∧
    (processOp op env).out =
      (if nativeAccepted env.native = true then .accept else .skip) := by
  have hns : ¬(op.aio_lio_opcode = IO_CMD_FSYNC ∨ op.aio_lio_opcode = IO_CMD_FDSYNC) :=
    fun h => h.elim h2 h3
  have hnv : ¬(op.aio_lio_opcode = IO_CMD_PREADV ∨ op.aio_lio_opcode = IO_CMD_PWRITEV) :=
    fun h => h.elim h7 h8
  have hread : (op.aio_lio_opcode == IO_CMD_PREAD) = false := by
    simp [h0]
  unfold processOp
  rw [if_neg (by simp [hres]), if_neg (by simp [hass]), if_neg hns, if_neg hnv,
    if_neg (by simp [halloc])]
  unfold singleIssued
  rw [hread]
  cases env.native with
  | ok => exact ⟨rfl, rfl⟩
  | failed e =>
    by_cases hp : e = ERROR_IO_PENDING
    · subst hp
      exact ⟨rfl, rfl⟩
    · dsimp only
      have hacc : nativeAccepted (.failed e) = false := by
        simp [nativeAccepted, hp]
      rw [hacc, if_neg hp]
      exact ⟨rfl, rfl⟩

/-- Witness for C9: opcode 42 with every native call succeeding yields one
issued write of the `u.c` payload and an accepted operation. -/
theorem C9_witness : (processOp C9op allOkEnv).issued = [⟨false, 5, 64, 0, 0⟩] ∧
    (processOp C9op allOkEnv).out =
      (if nativeAccepted allOkEnv.native = true then .accept else .skip) := by
  have h := C9_unknown_opcode_write C9op allOkEnv (by decide) (by decide) (by decide)
    (by decide) (by decide) (by decide) rfl rfl rfl
  exact ⟨h.1.trans (by decide), h.2⟩

/-- C4: with a valid context and a non-null events buffer, `io_getevents`
with `min_nr = 0` and `nr = 0` returns 0 immediately: no native wait is
issued, no completion is drained, no event is written, regardless of the
timeout, the request table, or the pending completion stream. -/
theorem C4_zero_zero_returns_immediately (timeout : Option timespec) (env : GEnv)
    (outs : List WaitOutcome) (groups0 : Nat → GroupState) :
    io_getevents true true 0 0 timeout env outs groups0 = ⟨0, [], [], []⟩ := rfl

/-- C2 (code bug): processing the closing segment completion of a vectored
group executes `delete win_req` (libaio_win32.cpp line 302) and then reads
`win_req->group_vectored` (line 304): the memory trace of the call contains
a read of request record 0 after its free. -/
theorem C2_use_after_free :
    hasUseAfterFree
      (io_getevents true true 1 1 none uafEnv uafOuts (fun _ => initGroup)).mem := by
  unfold hasUseAfterFree
  exact ⟨0, 1, 0, by omega, by decide, by decide⟩

theorem processPacket_collected_le (env : GEnv) (collected : Nat)
    (groups : Nat → GroupState) (c : Completion) :
    (processPacket env collected groups c).collected ≤ collected + 1 := by
  rcases hrec : env.record c.reqId with ⟨d, o⟩ | gid
  · simp [processPacket, hrec]
  · rcases hgs : groupStep (env.ginfo gid).total_segments (groups gid)
      ⟨c.status, c.bytes, c.ioErr⟩ with ⟨g', b⟩
    cases b <;> simp [processPacket, hrec, segPacketOut, hgs]

/-- The loop's returned count never exceeds `nr`. -/
theorem geLoop_ret_le (env : GEnv) (mn nr : Int) (tmo : Nat) :
    ∀ (outs : List WaitOutcome) (collected : Nat) (groups : Nat → GroupState),
      (collected : Int) ≤ nr → (geLoop env mn nr tmo outs collected groups).ret ≤ nr := by
  intro outs
  induction outs with
  | nil =>
    intro collected groups h
    simp only [geLoop]
    split_ifs <;> simpa using h
  | cons o rest ih =>
    intro collected groups h
    cases o with
    | timeout =>
      simp only [geLoop]
      split_ifs <;> simpa using h
    | fatal e =>
      simp only [geLoop]
      split_ifs with hlt
      · have := errno_nonpos e
        dsimp only
        omega
      · simpa using h
    | packet c =>
      simp only [geLoop]
      split_ifs with hlt hbrk
      · have hle := processPacket_collected_le env collected groups c
        dsimp only
        omega
      · have hle := processPacket_collected_le env collected groups c
        exact ih _ _ (by omega)
      · simpa using h

/-- Every native wait is issued with the budget computed from the collected
count at the time of the wait. -/
theorem geLoop_waits_budget (env : GEnv) (mn nr : Int) (tmo : Nat) :
    ∀ (outs : List WaitOutcome) (collected : Nat) (groups : Nat → GroupState),
      ∀ p ∈ (geLoop env mn nr tmo outs collected groups).waits,
        mn ≤ (p.1 : Int) → p.2 = 0 := by
  intro outs
  induction outs with
  | nil =>
    intro collected groups p hp hmn
    simp only [geLoop] at hp
    split_ifs at hp
    · rw [List.mem_singleton] at hp
      subst hp
      have hmn' : mn ≤ (collected : Int) := hmn
      show geBudget mn tmo collected = 0
      unfold geBudget
      rw [if_neg (by omega)]
    · simp at hp
  | cons o rest ih =>
    intro collected groups p hp hmn
    cases o with
    | timeout =>
      simp only [geLoop] at hp
      split_ifs at hp
      · rw [List.mem_singleton] at hp
        subst hp
        have hmn' : mn ≤ (collected : Int) := hmn
        show geBudget mn tmo collected = 0
        unfold geBudget
        rw [if_neg (by omega)]
      · simp at hp
    | fatal e =>
      simp only [geLoop] at hp
      split_ifs at hp
      · rw [List.mem_singleton] at hp
        subst hp
        have hmn' : mn ≤ (collected : Int) := hmn
        show geBudget mn tmo collected = 0
        unfold geBudget
        rw [if_neg (by omega)]
      · simp at hp
    | packet c =>
      simp only [geLoop] at hp
      split_ifs at hp
      · rw [List.mem_singleton] at hp
        subst hp
        have hmn' : mn ≤ (collected : Int) := hmn
        show geBudget mn tmo collected = 0
        unfold geBudget
        rw [if_neg (by omega)]
      · rcases List.mem_cons.mp hp with h1 | h2
        · subst h1
          have hmn' : mn ≤ (collected : Int) := hmn
          show geBudget mn tmo collected = 0
          unfold geBudget
          rw [if_neg (by omega)]
        · exact ih _ _ p h2 hmn
      · simp at hp

/-- C5: the value returned by `io_getevents`, when it is a count, never
exceeds `nr` (`max_nr`); and every native wait issued at a point where
`min_nr` events have already been collected carries a zero (non-blocking)
wait budget. -/
theorem C5_max_and_zero_budget (ctxValid eventsNonNull : Bool) (mn nr : Int)
    (timeout : Option timespec) (env : GEnv) (outs : List WaitOutcome)
    (groups0 : Nat → GroupState) :
    (0 ≤ (io_getevents ctxValid eventsNonNull mn nr timeout env outs groups0).ret →
      (io_getevents ctxValid eventsNonNull mn nr timeout env outs groups0).ret ≤ nr) ∧
    (∀ p ∈ (io_getevents ctxValid eventsNonNull mn nr timeout env outs groups0).waits,
      mn ≤ (p.1 : Int) → p.2 = 0) := by
  unfold io_getevents
  split_ifs with h1 h2
  · constructor
    · intro h
      exact absurd h (by decide)
    · intro p hp
      simp at hp
  · constructor
    · intro _
      have hr : (⟨0, [], [], []⟩ : GEOut).ret = 0 := rfl
      rw [hr]
      omega
    · intro p hp
      simp at hp
  · have hnr : ((0 : Nat) : Int) ≤ nr := by
      simp only [not_or, not_lt] at h1
      push_cast
      omega
    constructor
    · intro _
      exact geLoop_ret_le env mn nr (timespec_to_ms timeout) outs 0 groups0 hnr
    · intro p hp hmn
      exact geLoop_waits_budget env mn nr (timespec_to_ms timeout) outs 0 groups0 p hp hmn

/-- Witness for C5: a call with `min_nr = 0`, `nr = 1` and no pending
completions returns at most 1; and in a run with `min_nr = 1`, `nr = 3` and
two queued completions, the wait issued after the minimum was met carries a
zero budget. -/
theorem C5_witness :
    (io_getevents true true 0 1 none w5env [] (fun _ => initGroup)).ret ≤ 1 ∧
    ((io_getevents true true 1 3 (some ⟨1, 0⟩) w5env w5outs
      (fun _ => initGroup)).waits.getD 1 (0, 9)).2 = 0 := by
  constructor
  · exact (C5_max_and_zero_budget true true 0 1 none w5env []
      (fun _ => initGroup)).1 (by decide)
  · exact (C5_max_and_zero_budget true true 1 3 (some ⟨1, 0⟩) w5env w5outs
      (fun _ => initGroup)).2 _ (by decide) (by decide)

/-- What one dequeued packet does for group `gid` when every single
request's iocb and every other group's iocb are distinct from `gid`'s: it
emits no event carrying `gid`'s iocb unless it closes `gid` out, and it
increments `gid`'s completed count exactly when it is a `gid` segment. -/
theorem processPacket_no_gid (env : GEnv) (gid : Nat)
    (hsingle : ∀ r d o, env.record r = .single d o → o ≠ (env.ginfo gid).obj)
    (hother : ∀ g, g ≠ gid → (env.ginfo g).obj ≠ (env.ginfo gid).obj)
    (collected : Nat) (groups : Nat → GroupState) (c : Completion)
    (hroom : isGidPacket env gid (.packet c) = true →
      (groups gid).completed_segments + 1 < (env.ginfo gid).total_segments) :
    (∀ ev ∈ (processPacket env collected groups c).evs, ev.obj ≠ (env.ginfo gid).obj) ∧
    ((processPacket env collected groups c).groups gid).completed_segments =
      (groups gid).completed_segments +
        (if isGidPacket env gid (.packet c) then 1 else 0) := by
  rcases hrec : env.record c.reqId with ⟨d, o⟩ | g'
  · have hgp : isGidPacket env gid (.packet c) = false := by
      simp [isGidPacket, hrec]
    constructor
    · intro ev hev
      simp only [processPacket, hrec, List.mem_singleton] at hev
      subst hev
      exact hsingle _ _ _ hrec
    · simp [processPacket, hrec, hgp]
  · rcases hgs : groupStep (env.ginfo g').total_segments (groups g')
      ⟨c.status, c.bytes, c.ioErr⟩ with ⟨gs, b⟩
    have hcomp : gs.completed_segments = (groups g').completed_segments + 1 := by
      have h := groupStep_completed (env.ginfo g').total_segments (groups g')
        ⟨c.status, c.bytes, c.ioErr⟩
      rw [hgs] at h
      exact h
    by_cases hg : g' = gid
    · subst hg
      have hgp : isGidPacket env g' (.packet c) = true := by
        simp [isGidPacket, hrec]
      have hroom' := hroom hgp
      have hb : b = false := by
        have h := groupStep_emit (env.ginfo g').total_segments (groups g')
          ⟨c.status, c.bytes, c.ioErr⟩
        rw [hgs] at h
        dsimp only at h
        rw [h]
        simp only [beq_eq_false_iff_ne]
        omega
      subst hb
      constructor
      · intro ev hev
        simp only [processPacket, hrec, segPacketOut, hgs] at hev
        simp at hev
      · simp only [processPacket, hrec, segPacketOut, hgs]
        simp [hcomp, hgp]
    · have hgp : isGidPacket env gid (.packet c) = false := by
        simp [isGidPacket, hrec, hg]
      have hobj := hother g' hg
      constructor
      · intro ev hev
        cases b
        · simp only [processPacket, hrec, segPacketOut, hgs] at hev
          simp at hev
        · simp only [processPacket, hrec, segPacketOut, hgs, List.mem_singleton] at hev
          subst hev
          exact hobj
      · cases b <;> simp only [processPacket, hrec, segPacketOut, hgs, hgp] <;>
          simp [Ne.symm hg]

/-- While fewer `gid` segment completions remain in the stream than its
total demands, no event carrying `gid`'s iocb is ever emitted. -/
theorem geLoop_no_gid_event (env : GEnv) (mn nr : Int) (tmo : Nat) (gid : Nat)
    (hsingle : ∀ r d o, env.record r = .single d o → o ≠ (env.ginfo gid).obj)
    (hother : ∀ g, g ≠ gid → (env.ginfo g).obj ≠ (env.ginfo gid).obj) :
    ∀ (outs : List WaitOutcome) (collected : Nat) (groups : Nat → GroupState),
      (groups gid).completed_segments + countGidPackets env gid outs <
        (env.ginfo gid).total_segments →
      ∀ ev ∈ (geLoop env mn nr tmo outs collected groups).events,
        ev.obj ≠ (env.ginfo gid).obj := by
  intro outs
  induction outs with
  | nil =>
    intro collected groups _ ev hev
    simp only [geLoop] at hev
    split_ifs at hev <;> simp at hev
  | cons o rest ih =>
    intro collected groups hcnt ev hev
    cases o with
    | timeout =>
      simp only [geLoop] at hev
      split_ifs at hev <;> simp at hev
    | fatal e =>
      simp only [geLoop] at hev
      split_ifs at hev <;> simp at hev
    | packet c =>
      rw [countGidPackets, List.countP_cons] at hcnt
      have hroom : isGidPacket env gid (.packet c) = true →
          (groups gid).completed_segments + 1 < (env.ginfo gid).total_segments := by
        intro hgp
        rw [hgp] at hcnt
        simp at hcnt
        omega
      obtain ⟨hevs, hcomp⟩ :=
        processPacket_no_gid env gid hsingle hother collected groups c hroom
      have hinv : ((processPacket env collected groups c).groups gid).completed_segments +
          countGidPackets env gid rest < (env.ginfo gid).total_segments := by
        rw [hcomp, countGidPackets]
        by_cases hgp : isGidPacket env gid (.packet c) = true
        · rw [hgp] at hcnt ⊢
          simp only [if_true] at hcnt ⊢
          omega
        · rw [Bool.not_eq_true] at hgp
          rw [hgp] at hcnt ⊢
          simp only [Bool.false_eq_true, if_false] at hcnt ⊢
          omega
      simp only [geLoop] at hev
      split_ifs at hev with hlt hbrk
      · exact hevs ev hev
      · rcases List.mem_append.mp hev with h1 | h2
        · exact hevs ev h1
        · exact ih _ _ hinv ev h2
      · simp at hev

/-- C3 counterexample: a batch containing exactly one vectored operation
whose single segment fails its native submission with a non-pending error
makes `io_submit` return 1 — the operation receives accepted-count credit,
contradicting the claim that it receives none. -/
theorem C3_counterexample : io_submit true [(some C3vop, C3venv)] = 1 := by decide

/-- C3 (amended): a sync/data-sync operation whose inline flush fails is
swallowed with no accepted-count credit and no native request issued (hence
no completion event can ever arrive for it).  A vectored operation one of
whose segments fails its native submission (non-pending) IS still counted
as accepted, but fewer than N of its segment records remain in flight, and
with fewer than N segment completions for its group ever arriving no
completion event for its iocb is ever emitted. -/
theorem C3_swallowed_amended :
    (∀ pre post op env,
      (op.aio_lio_opcode = IO_CMD_FSYNC ∨ op.aio_lio_opcode = IO_CMD_FDSYNC) →
      env.resolveOk = true → env.assocOk = true → env.flushOk = false →
      submitLoop (pre ++ (some op, env) :: post) = submitLoop (pre ++ post)) ∧
    (∀ op env,
      (op.aio_lio_opcode = IO_CMD_PREADV ∨ op.aio_lio_opcode = IO_CMD_PWRITEV) →
      env.resolveOk = true → env.assocOk = true → env.groupAllocOk = true →
      (∀ i, i < op.u_v.vec.length →
        ((env.segEnvs.getD i defaultSegEnv).allocOk) = true) →
      (∃ i, i < op.u_v.vec.length ∧
        nativeAccepted ((env.segEnvs.getD i defaultSegEnv).native) = false) →
      (processOp op env).out = .accept ∧
        (processOp op env).liveRecs < op.u_v.vec.length) ∧
    (∀ ctxValid eventsNonNull mn nr timeout env outs groups0 gid,
      groups0 gid = initGroup →
      countGidPackets env gid outs < (env.ginfo gid).total_segments →
      (∀ r d o, env.record r = .single d o → o ≠ (env.ginfo gid).obj) →
      (∀ g, g ≠ gid → (env.ginfo g).obj ≠ (env.ginfo gid).obj) →
      ∀ ev ∈ (io_getevents ctxValid eventsNonNull mn nr timeout env outs groups0).events,
        ev.obj ≠ (env.ginfo gid).obj) := by
  refine ⟨?_, ?_, ?_⟩
  · intro pre post op env hop hres hass hflush
    apply submitLoop_skip
    unfold processOp
    rw [if_neg (by simp [hres]), if_neg (by simp [hass]), if_pos hop, if_pos hflush]
  · intro op env hop hres hass hga halloc hfail
    have hlen : ¬op.u_v.vec.length = 0 := by
      rcases hfail with ⟨i, hi, -⟩
      omega
    rw [processOp_vectored op env hop hres hass hga hlen halloc]
    exact ⟨rfl, liveSpec_lt _ _ hfail⟩
  · intro ctxValid eventsNonNull mn nr timeout env outs groups0 gid hg0 hcnt hsingle hother
      ev hev
    unfold io_getevents at hev
    split_ifs at hev with h1 h2
    · simp at hev
    · simp at hev
    · refine geLoop_no_gid_event env mn nr (timespec_to_ms timeout) gid hsingle hother
        outs 0 groups0 ?_ ev hev
      rw [hg0]
      simpa [initGroup] using hcnt

/-- Witness for C3 (amended) at concrete inputs: the failed-flush data-sync
submission alone yields count 0 and no issued request; the one-segment
vectored operation with a failed segment is accepted with no live segment
record; and the no-event part applied to a concrete run shows the emitted
event does not carry group 0's iocb. -/
theorem C3_witness :
    submitLoop [(some C3sop, C3senv)] = (0, []) ∧
    (processOp C3vop C3venv).out = .accept ∧
    (processOp C3vop C3venv).liveRecs < 1 ∧
    (⟨5, 33, 100, 0⟩ : IoEvent).obj ≠ 22 := by
  have h := C3_swallowed_amended
  have hallocs : ∀ i, i < C3vop.u_v.vec.length →
      ((C3venv.segEnvs.getD i defaultSegEnv).allocOk) = true := by
    intro i hi
    have h0 : i = 0 := by
      have : C3vop.u_v.vec.length = 1 := rfl
      omega
    subst h0
    rfl
  have hfail : ∃ i, i < C3vop.u_v.vec.length ∧
      nativeAccepted ((C3venv.segEnvs.getD i defaultSegEnv).native) = false :=
    ⟨0, by decide, by decide⟩
  have h2 := h.2.1 C3vop C3venv (Or.inl rfl) rfl rfl rfl hallocs hfail
  refine ⟨?_, h2.1, ?_, ?_⟩
  · have h1 := h.1 [] [] C3sop C3senv (Or.inl rfl) rfl rfl rfl
    simpa using h1
  · have h3 := h2.2
    have hlen1 : C3vop.u_v.vec.length = 1 := rfl
    rw [hlen1] at h3
    exact h3
  · exact h.2.2 true true 1 1 none C3genv C3outs (fun _ => initGroup) 0 rfl (by decide)
      (by
        intro r d o hro
        simp only [C3genv] at hro
        cases hro
        decide)
      (by
        intro g hg
        show (C3genv.ginfo g).obj ≠ (C3genv.ginfo 0).obj
        simp only [C3genv]
        rw [if_neg hg]
        decide)
      ⟨5, 33, 100, 0⟩ (by decide)

/-- After processing one packet, every event emitted carries as `res2`
either 0 or a raw native code drawn from a failed completion, and the
group states keep that invariant for `first_error`. -/
theorem processPacket_res2 (env : GEnv) (S : Nat → Prop) (collected : Nat)
    (groups : Nat → GroupState) (c : Completion)
    (hc : c.status = false → S c.ioErr)
    (hg : ∀ g, ((groups g).first_error) = 0 ∨ S ((groups g).first_error)) :
    (∀ ev ∈ (processPacket env collected groups c).evs, ev.res2 = 0 ∨ S ev.res2) ∧
    (∀ g, (((processPacket env collected groups c).groups g).first_error) = 0 ∨
      S (((processPacket env collected groups c).groups g).first_error)) := by
  rcases hrec : env.record c.reqId with ⟨d, o⟩ | gid
  · constructor
    · intro ev hev
      simp only [processPacket, hrec, List.mem_singleton] at hev
      subst hev
      cases hs : c.status
      · right
        simpa [hs] using hc hs
      · left
        simp [hs]
    · intro g
      simpa [processPacket, hrec] using hg g
  · rcases hgs : groupStep (env.ginfo gid).total_segments (groups gid)
      ⟨c.status, c.bytes, c.ioErr⟩ with ⟨gs, b⟩
    have hfe : gs.first_error = 0 ∨ S gs.first_error := by
      have h := groupStep_err (env.ginfo gid).total_segments (groups gid)
        ⟨c.status, c.bytes, c.ioErr⟩
      rw [hgs] at h
      dsimp only at h
      cases hs : c.status
      · rw [hs] at h
        simp only [Bool.false_eq_true, if_false] at h
        by_cases h0 : (groups gid).first_error = 0
        · rw [if_pos h0] at h
          rw [h]
          exact Or.inr (hc hs)
        · rw [if_neg h0] at h
          rw [h]
          exact hg gid
      · rw [hs] at h
        simp only [if_true] at h
        rw [h]
        exact hg gid
    constructor
    · intro ev hev
      cases b
      · simp only [processPacket, hrec, segPacketOut, hgs] at hev
        simp at hev
      · simp only [processPacket, hrec, segPacketOut, hgs, List.mem_singleton] at hev
        subst hev
        exact hfe
    · intro g
      have hupd : ((processPacket env collected groups c).groups g) =
          (if g = gid then gs else groups g) := by
        cases b <;> simp [processPacket, hrec, segPacketOut, hgs]
      rw [hupd]
      by_cases hgg : g = gid
      · rw [if_pos hgg]
        exact hfe
      · rw [if_neg hgg]
        exact hg g

/-- Every event the loop emits carries as `res2` either 0 or a value from
the set `S` covering the raw native error codes of failed completions. -/
theorem geLoop_res2 (env : GEnv) (mn nr : Int) (tmo : Nat) (S : Nat → Prop) :
    ∀ (outs : List WaitOutcome) (collected : Nat) (groups : Nat → GroupState),
      (∀ o ∈ outs, ∀ c : Completion, o = .packet c → c.status = false → S c.ioErr) →
      (∀ g, ((groups g).first_error) = 0 ∨ S ((groups g).first_error)) →
      ∀ ev ∈ (geLoop env mn nr tmo outs collected groups).events,
        ev.res2 = 0 ∨ S ev.res2 := by
  intro outs
  induction outs with
  | nil =>
    intro collected groups _ _ ev hev
    simp only [geLoop] at hev
    split_ifs at hev <;> simp at hev
  | cons o rest ih =>
    intro collected groups houts hg ev hev
    cases o with
    | timeout =>
      simp only [geLoop] at hev
      split_ifs at hev <;> simp at hev
    | fatal e =>
      simp only [geLoop] at hev
      split_ifs at hev <;> simp at hev
    | packet c =>
      have hc : c.status = false → S c.ioErr :=
        houts _ (List.mem_cons_self _ _) c rfl
      have houts' : ∀ o ∈ rest, ∀ c' : Completion,
          o = .packet c' → c'.status = false → S c'.ioErr :=
        fun o ho => houts o (List.mem_cons_of_mem _ ho)
      obtain ⟨hevs, hg'⟩ := processPacket_res2 env S collected groups c hc hg
      simp only [geLoop] at hev
      split_ifs at hev with hlt hbrk
      · exact hevs ev hev
      · rcases List.mem_append.mp hev with h1 | h2
        · exact hevs ev h1
        · exact ih _ _ houts' hg' ev h2
      · simp at hev

/-- C8: the error translator is a pure function that maps the native
success code `ERROR_SUCCESS` to 0 and every native code outside the
switch's case labels to the generic I/O error `-EIO`; and the `res2` field
of every event `io_getevents` emits is the untranslated native error code
(0 on success): it always lies in `{0} ∪ S` for any set `S` containing the
raw `GetLastError()` codes of the failed completions in the stream
(provided the initial group states' `first_error` slots do too). -/
theorem C8_error_translation :
    windows_error_to_errno ERROR_SUCCESS = 0 ∧
    (∀ e, e ∉ mappedWinCodes → windows_error_to_errno e = GENERIC_IO_ERROR) ∧
    (∀ (S : Nat → Prop) ctxValid eventsNonNull mn nr timeout env outs groups0,
      (∀ o ∈ outs, ∀ c : Completion, o = .packet c → c.status = false → S c.ioErr) →
      (∀ g, ((groups0 g).first_error) = 0 ∨ S ((groups0 g).first_error)) →
      ∀ ev ∈ (io_getevents ctxValid eventsNonNull mn nr timeout env outs groups0).events,
        ev.res2 = 0 ∨ S ev.res2) := by
  refine ⟨rfl, fun e he => errno_unmapped e he, ?_⟩
  intro S ctxValid eventsNonNull mn nr timeout env outs groups0 houts hg ev hev
  unfold io_getevents at hev
  split_ifs at hev
  · simp at hev
  · simp at hev
  · exact geLoop_res2 env mn nr (timespec_to_ms timeout) S outs 0 groups0 houts hg ev hev

/-- Witness for C8: the unmapped code 9999 translates to the generic I/O
error, and in a run delivering one failed single completion with native
code 77 the emitted event's `res2` is exactly that raw code. -/
theorem C8_witness :
    windows_error_to_errno 0 = 0 ∧
    windows_error_to_errno 9999 = GENERIC_IO_ERROR ∧
    (((io_getevents true true 1 1 none C8env C8outs
        (fun _ => initGroup)).events.getD 0 dummyEvent).res2 = 0 ∨
      ((io_getevents true true 1 1 none C8env C8outs
        (fun _ => initGroup)).events.getD 0 dummyEvent).res2 = 77) := by
  have h := C8_error_translation
  refine ⟨h.1, h.2.1 9999 (by decide), ?_⟩
  exact h.2.2 (fun x => x = 77) true true 1 1 none C8env C8outs (fun _ => initGroup)
    (by
      intro o ho c hoc hcs
      simp only [C8outs, List.mem_singleton] at ho
      subst ho
      cases hoc
      rfl)
    (fun g => Or.inl rfl)
    _ (by decide)

end LibaioWin32
